import Mathlib

/-!
Verification of the numeric utility header `bdn/Number.h` (boden framework).

Machine integers are modelled as `Nat` values below `2 ^ (8 * byteCount)`;
C++ unsigned arithmetic becomes `Nat` arithmetic with an explicit `% 2 ^ w`
wherever the C++ code truncates (conversion back to the unsigned type, or an
operation carried out directly in the fixed-width unsigned type).  For the
8- and 16-bit operations the C++ code computes in promoted `int` arithmetic,
which never overflows for in-range operands, so the whole expression is exact
and only the final conversion truncates.  Shift counts follow the caller
contract `0 ≤ bits ≤ 8 * byteCount` stated in the header; a shift by the full
width is modelled by the mathematical shift (`x >>> w = x / 2 ^ w`,
`x <<< w = x * 2 ^ w` before truncation), which is what the documented
intrinsic implementations (`_rotl`, `_rotr`, ...) compute.
-/

namespace BdnNumber

/-- Byte widths handled by the width dispatch table `_IntOpImpl<byteCount>`;
any other width is rejected at compile time in the C++ source. -/
inductive ByteWidth where
  | w1
  | w2
  | w4
  | w8
deriving DecidableEq

/-- Number of bits of a dispatch width. -/
def ByteWidth.bits : ByteWidth → Nat
  | .w1 => 8
  | .w2 => 16
  | .w4 => 32
  | .w8 => 64

namespace IntOpImpl1

/-- `_IntOpImpl<1>::_rotateBitsLeftImpl`: `(val << bits) | (val >> (8 - bits))`
computed in promoted `int` arithmetic, converted back to `uint8_t`. -/
def rotateBitsLeftImpl (val bits : Nat) : Nat :=
  ((val <<< bits) ||| (val >>> (8 - bits))) % 2 ^ 8

/-- `_IntOpImpl<1>::_rotateBitsRightImpl`: `(val >> bits) | (val << (8 - bits))`. -/
def rotateBitsRightImpl (val bits : Nat) : Nat :=
  ((val >>> bits) ||| (val <<< (8 - bits))) % 2 ^ 8

/-- `_IntOpImpl<1>::_invertByteOrderImpl`: a single byte is returned unchanged. -/
def invertByteOrderImpl (val : Nat) : Nat :=
  val

end IntOpImpl1

namespace IntOpImpl2

/-- `_IntOpImpl<2>::_rotateBitsLeftImpl`: `(val << bits) | (val >> (16 - bits))`
in promoted `int` arithmetic, converted back to `uint16_t`. -/
def rotateBitsLeftImpl (val bits : Nat) : Nat :=
  ((val <<< bits) ||| (val >>> (16 - bits))) % 2 ^ 16

/-- `_IntOpImpl<2>::_rotateBitsRightImpl`: `(val >> bits) | (val << (16 - bits))`. -/
def rotateBitsRightImpl (val bits : Nat) : Nat :=
  ((val >>> bits) ||| (val <<< (16 - bits))) % 2 ^ 16

/-- `_IntOpImpl<2>::_invertByteOrderImpl`, portable branch
`(val & 0xff) << 8 | (val & 0xff00) >> 8` (the `_byteswap_ushort` /
`__builtin_bswap16` intrinsics compute the same value). -/
def invertByteOrderImpl (val : Nat) : Nat :=
  (((val &&& 0xff) <<< 8) ||| ((val &&& 0xff00) >>> 8)) % 2 ^ 16

end IntOpImpl2

namespace IntOpImpl4

/-- `_IntOpImpl<4>::_rotateBitsLeftImpl`, portable branch
`(val << bits) | (val >> (32 - bits))` carried out in `uint32_t`, so the left
shift truncates to 32 bits (the `_rotl` intrinsic computes the same value). -/
def rotateBitsLeftImpl (val bits : Nat) : Nat :=
  (((val <<< bits) % 2 ^ 32) ||| (val >>> (32 - bits)))

/-- `_IntOpImpl<4>::_rotateBitsRightImpl`, portable branch
`(val >> bits) | (val << (32 - bits))` in `uint32_t`. -/
def rotateBitsRightImpl (val bits : Nat) : Nat :=
  ((val >>> bits) ||| ((val <<< (32 - bits)) % 2 ^ 32))

/-- `_IntOpImpl<4>::_invertByteOrderImpl`, portable branch
`(val & 0xff) << 24 | (val & 0xff00) << 8 | (val & 0xff0000) >> 8 |
(val & 0xff000000) >> 24` in `uint32_t`; no intermediate truncation occurs
because every masked operand shifted left stays below `2 ^ 32`. -/
def invertByteOrderImpl (val : Nat) : Nat :=
  (((val &&& 0xff) <<< 24) ||| ((val &&& 0xff00) <<< 8) |||
      ((val &&& 0xff0000) >>> 8) ||| ((val &&& 0xff000000) >>> 24)) % 2 ^ 32

end IntOpImpl4

namespace IntOpImpl8

/-- `_IntOpImpl<8>::_rotateBitsLeftImpl`, portable branch
`(val << bits) | (val >> (64 - bits))` carried out in `uint64_t`. -/
def rotateBitsLeftImpl (val bits : Nat) : Nat :=
  (((val <<< bits) % 2 ^ 64) ||| (val >>> (64 - bits)))

/-- `_IntOpImpl<8>::_rotateBitsRightImpl`, portable branch
`(val >> bits) | (val << (64 - bits))` in `uint64_t`. -/
def rotateBitsRightImpl (val bits : Nat) : Nat :=
  ((val >>> bits) ||| ((val <<< (64 - bits)) % 2 ^ 64))

/-- `_IntOpImpl<8>::_invertByteOrderImpl`, portable branch: the eight
byte-aligned mask-and-shift terms, OR-ed together, in `uint64_t`; no
intermediate truncation occurs because every shifted term stays below
`2 ^ 64`. -/
def invertByteOrderImpl (val : Nat) : Nat :=
  (((val &&& 0xff) <<< 56) ||| ((val &&& 0xff00) <<< 40) |||
      ((val &&& 0xff0000) <<< 24) ||| ((val &&& 0xff000000) <<< 8) |||
      ((val &&& 0xff00000000) >>> 8) ||| ((val &&& 0xff0000000000) >>> 24) |||
      ((val &&& 0xff000000000000) >>> 40) |||
      ((val &&& 0xff00000000000000) >>> 56)) % 2 ^ 64

end IntOpImpl8

/-- Free function `bdn::rotateBitsLeft<T>`: dispatches on `sizeof(T)` to the
matching `_IntOpImpl` bundle.  The cast through the unsigned type of the same
width is the identity on the `Nat` representation. -/
def rotateBitsLeft : ByteWidth → Nat → Nat → Nat
  | .w1, value, bits => IntOpImpl1.rotateBitsLeftImpl value bits
  | .w2, value, bits => IntOpImpl2.rotateBitsLeftImpl value bits
  | .w4, value, bits => IntOpImpl4.rotateBitsLeftImpl value bits
  | .w8, value, bits => IntOpImpl8.rotateBitsLeftImpl value bits

/-- Free function `bdn::rotateBitsRight<T>`. -/
def rotateBitsRight : ByteWidth → Nat → Nat → Nat
  | .w1, value, bits => IntOpImpl1.rotateBitsRightImpl value bits
  | .w2, value, bits => IntOpImpl2.rotateBitsRightImpl value bits
  | .w4, value, bits => IntOpImpl4.rotateBitsRightImpl value bits
  | .w8, value, bits => IntOpImpl8.rotateBitsRightImpl value bits

/-- Free function `bdn::invertByteOrder<T>`. -/
def invertByteOrder : ByteWidth → Nat → Nat
  | .w1, value => IntOpImpl1.invertByteOrderImpl value
  | .w2, value => IntOpImpl2.invertByteOrderImpl value
  | .w4, value => IntOpImpl4.invertByteOrderImpl value
  | .w8, value => IntOpImpl8.invertByteOrderImpl value

/-! ### Generic rotation formula and its algebra -/

/-- The common rotate-left formula at bit width `n`. -/
def rotl (n v k : Nat) : Nat :=
  ((v <<< k) ||| (v >>> (n - k))) % 2 ^ n

/-- The common rotate-right formula at bit width `n`. -/
def rotr (n v k : Nat) : Nat :=
  ((v >>> k) ||| (v <<< (n - k))) % 2 ^ n

theorem or_mod_two_pow (a b n : Nat) :
    (a ||| b) % 2 ^ n = (a % 2 ^ n) ||| (b % 2 ^ n) := by
  apply Nat.eq_of_testBit_eq
  intro i
  simp only [Nat.testBit_mod_two_pow, Nat.testBit_or, Bool.and_or_distrib_left]

theorem rotateBitsLeft_eq_rotl (w : ByteWidth) (v k : Nat) (hv : v < 2 ^ w.bits) :
    rotateBitsLeft w v k = rotl w.bits v k := by
  have h : ∀ n, v < 2 ^ n → ((v <<< k) % 2 ^ n) ||| (v >>> (n - k)) =
      ((v <<< k) ||| (v >>> (n - k))) % 2 ^ n := by
    intro n hn
    rw [or_mod_two_pow]
    have hle : v >>> (n - k) ≤ v := by
      rw [Nat.shiftRight_eq_div_pow]; exact Nat.div_le_self _ _
    rw [Nat.mod_eq_of_lt (Nat.lt_of_le_of_lt hle hn)]
  cases w <;>
    simp only [rotateBitsLeft, ByteWidth.bits, IntOpImpl1.rotateBitsLeftImpl,
      IntOpImpl2.rotateBitsLeftImpl, IntOpImpl4.rotateBitsLeftImpl,
      IntOpImpl8.rotateBitsLeftImpl, rotl] at hv ⊢
  · exact h 32 hv
  · exact h 64 hv

theorem rotateBitsRight_eq_rotr (w : ByteWidth) (v k : Nat) (hv : v < 2 ^ w.bits) :
    rotateBitsRight w v k = rotr w.bits v k := by
  have h : ∀ n, v < 2 ^ n → (v >>> k) ||| ((v <<< (n - k)) % 2 ^ n) =
      ((v >>> k) ||| (v <<< (n - k))) % 2 ^ n := by
    intro n hn
    rw [or_mod_two_pow]
    have hle : v >>> k ≤ v := by
      rw [Nat.shiftRight_eq_div_pow]; exact Nat.div_le_self _ _
    rw [Nat.mod_eq_of_lt (Nat.lt_of_le_of_lt hle hn)]
  cases w <;>
    simp only [rotateBitsRight, ByteWidth.bits, IntOpImpl1.rotateBitsRightImpl,
      IntOpImpl2.rotateBitsRightImpl, IntOpImpl4.rotateBitsRightImpl,
      IntOpImpl8.rotateBitsRightImpl, rotr] at hv ⊢
  · exact h 32 hv
  · exact h 64 hv


theorem rotr_rotl (n v k : Nat) (hv : v < 2 ^ n) (hk : k ≤ n) :
    rotr n (rotl n v k) k = v := by
  apply Nat.eq_of_testBit_eq
  intro i
  simp only [rotl, rotr, Nat.testBit_mod_two_pow, Nat.testBit_or,
    Nat.testBit_shiftLeft, Nat.testBit_shiftRight, ge_iff_le]
  rcases Nat.lt_or_ge i n with hi | hi
  · rcases Nat.lt_or_ge i (n - k) with hik | hik
    · have e1 : k + i - k = i := by omega
      have e2 : n - k + (k + i) = n + i := by omega
      have hf : v.testBit (n + i) = false :=
        Nat.testBit_lt_two_pow
          (lt_of_lt_of_le hv (Nat.pow_le_pow_right (by norm_num) (by omega)))
      have d1 : k + i < n := by omega
      have d2 : ¬ (n - k ≤ i) := by omega
      have d3 : k ≤ k + i := by omega
      simp [hi, e1, e2, hf, d1, d2, d3]
    · have d1 : ¬ (k + i < n) := by omega
      have d3 : i - (n - k) < n := by omega
      have d4 : ¬ (k ≤ i - (n - k)) := by omega
      have e1 : n - k + (i - (n - k)) = i := by omega
      simp [hi, hik, d1, d3, d4, e1]
  · have h1 : ¬ i < n := by omega
    have h2 : v.testBit i = false :=
      Nat.testBit_lt_two_pow
        (lt_of_lt_of_le hv (Nat.pow_le_pow_right (by norm_num) hi))
    simp [h1, h2]

theorem rotl_rotr (n v k : Nat) (hv : v < 2 ^ n) (hk : k ≤ n) :
    rotl n (rotr n v k) k = v := by
  apply Nat.eq_of_testBit_eq
  intro i
  simp only [rotl, rotr, Nat.testBit_mod_two_pow, Nat.testBit_or,
    Nat.testBit_shiftLeft, Nat.testBit_shiftRight, ge_iff_le]
  rcases Nat.lt_or_ge i n with hi | hi
  · rcases Nat.lt_or_ge i k with hik | hik
    · have d1 : ¬ (k ≤ i) := by omega
      have d2 : n - k + i < n := by omega
      have e1 : k + (n - k + i) = n + i := by omega
      have hf : v.testBit (n + i) = false :=
        Nat.testBit_lt_two_pow
          (lt_of_lt_of_le hv (Nat.pow_le_pow_right (by norm_num) (by omega)))
      have d3 : n - k ≤ n - k + i := by omega
      have e2 : n - k + i - (n - k) = i := by omega
      simp [hi, d1, d2, e1, hf, d3, e2]
    · have d1 : i - k < n := by omega
      have e1 : k + (i - k) = i := by omega
      have d2 : ¬ (n - k ≤ i - k) := by omega
      have d3 : ¬ (n - k + i < n) := by omega
      simp [hi, hik, d1, e1, d2, d3]
  · have h1 : ¬ i < n := by omega
    have h2 : v.testBit i = false :=
      Nat.testBit_lt_two_pow
        (lt_of_lt_of_le hv (Nat.pow_le_pow_right (by norm_num) hi))
    simp [h1, h2]

theorem rotl_lt (n v k : Nat) : rotl n v k < 2 ^ n := by
  unfold rotl; exact Nat.mod_lt _ (Nat.two_pow_pos _)

theorem rotr_lt (n v k : Nat) : rotr n v k < 2 ^ n := by
  unfold rotr; exact Nat.mod_lt _ (Nat.two_pow_pos _)

/-- C1: for every unsigned integer width W ∈ {8, 16, 32, 64} bits, every value
v of that width and every k with 0 ≤ k < W,
`rotateBitsRight (rotateBitsLeft v k) k = v` and
`rotateBitsLeft (rotateBitsRight v k) k = v`. -/
theorem rotateBits_roundtrip (w : ByteWidth) (v k : Nat)
    (hv : v < 2 ^ w.bits) (hk : k < w.bits) :
    rotateBitsRight w (rotateBitsLeft w v k) k = v ∧
    rotateBitsLeft w (rotateBitsRight w v k) k = v := by
  constructor
  · rw [rotateBitsLeft_eq_rotl w v k hv,
      rotateBitsRight_eq_rotr w _ k (rotl_lt _ _ _),
      rotr_rotl w.bits v k hv (Nat.le_of_lt hk)]
  · rw [rotateBitsRight_eq_rotr w v k hv,
      rotateBitsLeft_eq_rotl w _ k (rotr_lt _ _ _),
      rotl_rotr w.bits v k hv (Nat.le_of_lt hk)]

/-- Witness for C1: width 2 bytes, value 0xF000, shift 4. -/
theorem rotateBits_roundtrip_witness :
    (0xF000 : Nat) < 2 ^ ByteWidth.w2.bits ∧ 4 < ByteWidth.w2.bits ∧
    (rotateBitsRight .w2 (rotateBitsLeft .w2 0xF000 4) 4 = 0xF000 ∧
      rotateBitsLeft .w2 (rotateBitsRight .w2 0xF000 4) 4 = 0xF000) :=
  ⟨by decide, by decide, rotateBits_roundtrip .w2 0xF000 4 (by decide) (by decide)⟩


theorem rotl_zero (n v : Nat) (hv : v < 2 ^ n) : rotl n v 0 = v := by
  simp [rotl, Nat.shiftRight_eq_div_pow, Nat.div_eq_of_lt hv, Nat.mod_eq_of_lt hv]

theorem rotr_zero (n v : Nat) (hv : v < 2 ^ n) : rotr n v 0 = v := by
  simp [rotr, or_mod_two_pow, Nat.shiftLeft_eq, Nat.mul_mod_left,
    Nat.mod_eq_of_lt hv]

theorem rotl_full (n v : Nat) (hv : v < 2 ^ n) : rotl n v n = v := by
  simp [rotl, Nat.sub_self, or_mod_two_pow, Nat.shiftLeft_eq, Nat.mul_mod_left,
    Nat.mod_eq_of_lt hv]

theorem rotr_full (n v : Nat) (hv : v < 2 ^ n) : rotr n v n = v := by
  simp [rotr, Nat.sub_self, Nat.shiftRight_eq_div_pow, Nat.div_eq_of_lt hv,
    Nat.mod_eq_of_lt hv]

/-- C5: concrete values of the bit operations:
`invertByteOrder (uint16 0x1234) = 0x3412`,
`invertByteOrder (uint32 0x11223344) = 0x44332211`,
`rotateBitsLeft (uint16 0xF000) 4 = 0x000F`,
`rotateBitsRight (uint16 0x000F) 4 = 0xF000`. -/
theorem bitOps_concrete_values :
    invertByteOrder .w2 0x1234 = 0x3412 ∧
    invertByteOrder .w4 0x11223344 = 0x44332211 ∧
    rotateBitsLeft .w2 0xF000 4 = 0x000F ∧
    rotateBitsRight .w2 0x000F 4 = 0xF000 := by
  decide

/-- C6: boundary cases: rotating by 0 or by the full bit width returns the
value unchanged at every width; `invertByteOrder 0 = 0` at every width; and
the 8-byte byte swap of 0x0102030405060708 is 0x0807060504030201. -/
theorem bitOps_boundary_cases (w : ByteWidth) (v : Nat) (hv : v < 2 ^ w.bits) :
    rotateBitsLeft w v 0 = v ∧ rotateBitsRight w v 0 = v ∧
    rotateBitsLeft w v w.bits = v ∧ rotateBitsRight w v w.bits = v ∧
    invertByteOrder w 0 = 0 ∧
    invertByteOrder .w8 0x0102030405060708 = 0x0807060504030201 := by
  refine ⟨?_, ?_, ?_, ?_, ?_, by decide⟩
  · rw [rotateBitsLeft_eq_rotl w v 0 hv, rotl_zero _ _ hv]
  · rw [rotateBitsRight_eq_rotr w v 0 hv, rotr_zero _ _ hv]
  · rw [rotateBitsLeft_eq_rotl w v _ hv, rotl_full _ _ hv]
  · rw [rotateBitsRight_eq_rotr w v _ hv, rotr_full _ _ hv]
  · cases w <;> decide

/-- Witness for C6: width 2 bytes, value 0x1234. -/
theorem bitOps_boundary_cases_witness :
    (0x1234 : Nat) < 2 ^ ByteWidth.w2.bits ∧
    (rotateBitsLeft .w2 0x1234 0 = 0x1234 ∧ rotateBitsRight .w2 0x1234 0 = 0x1234 ∧
      rotateBitsLeft .w2 0x1234 ByteWidth.w2.bits = 0x1234 ∧
      rotateBitsRight .w2 0x1234 ByteWidth.w2.bits = 0x1234 ∧
      invertByteOrder .w2 0 = 0 ∧
      invertByteOrder .w8 0x0102030405060708 = 0x0807060504030201) :=
  ⟨by decide, bitOps_boundary_cases .w2 0x1234 (by decide)⟩

/-! ### Byte-order inversion: arithmetic byte decomposition -/

theorem and_shifted_mask (x k s : Nat) :
    x &&& ((2 ^ k - 1) <<< s) = ((x >>> s) % 2 ^ k) <<< s := by
  apply Nat.eq_of_testBit_eq
  intro i
  simp only [Nat.testBit_and, Nat.testBit_shiftLeft, Nat.testBit_mod_two_pow,
    Nat.testBit_shiftRight, Nat.testBit_two_pow_sub_one, ge_iff_le]
  rcases Nat.lt_or_ge i s with h | h
  · have d : ¬ (s ≤ i) := by omega
    simp [d]
  · have e : s + (i - s) = i := by omega
    by_cases hk : i - s < k <;>
      cases hx : x.testBit i <;> simp [h, hk, e, hx]

theorem invertByteOrderImpl2_eq (v : Nat) :
    IntOpImpl2.invertByteOrderImpl v =
      2 ^ 8 * (v % 2 ^ 8) + v / 2 ^ 8 % 2 ^ 8 := by
  have m1 : v &&& 0xff = v % 2 ^ 8 := by
    have h : (0xff : Nat) = 2 ^ 8 - 1 := by norm_num
    rw [h, Nat.and_pow_two_sub_one_eq_mod]
  have m2 : v &&& 0xff00 = ((v >>> 8) % 2 ^ 8) <<< 8 := by
    have h : (0xff00 : Nat) = (2 ^ 8 - 1) <<< 8 := by decide
    rw [h, and_shifted_mask]
  rw [IntOpImpl2.invertByteOrderImpl, m1, m2]
  simp only [Nat.shiftLeft_eq, Nat.shiftRight_eq_div_pow]
  have e1 : v / 2 ^ 8 % 2 ^ 8 * 2 ^ 8 / 2 ^ 8 = v / 2 ^ 8 % 2 ^ 8 :=
    Nat.mul_div_cancel _ (by norm_num)
  rw [e1]
  have hb : v / 2 ^ 8 % 2 ^ 8 < 2 ^ 8 := Nat.mod_lt _ (by norm_num)
  have e2 : v % 2 ^ 8 * 2 ^ 8 = 2 ^ 8 * (v % 2 ^ 8) := by ring
  rw [e2, ← Nat.mul_add_lt_is_or hb]
  have h0 : v % 2 ^ 8 < 2 ^ 8 := Nat.mod_lt _ (by norm_num)
  omega

theorem invertByteOrderImpl2_involutive (v : Nat) (hv : v < 2 ^ 16) :
    IntOpImpl2.invertByteOrderImpl (IntOpImpl2.invertByteOrderImpl v) = v := by
  rw [invertByteOrderImpl2_eq, invertByteOrderImpl2_eq]
  have hA : (2 ^ 8 * (v % 2 ^ 8) + v / 2 ^ 8 % 2 ^ 8) % 2 ^ 8 = v / 2 ^ 8 % 2 ^ 8 := by
    rw [Nat.mul_add_mod, Nat.mod_mod_of_dvd _ dvd_rfl]
  have hB : (2 ^ 8 * (v % 2 ^ 8) + v / 2 ^ 8 % 2 ^ 8) / 2 ^ 8 = v % 2 ^ 8 := by
    rw [Nat.mul_add_div (by norm_num)]
    have h : v / 2 ^ 8 % 2 ^ 8 / 2 ^ 8 = 0 :=
      Nat.div_eq_of_lt (Nat.mod_lt _ (by norm_num))
    omega
  rw [hA, hB]
  omega


theorem and_byte_mask (v k s m : Nat) (hm : m = (2 ^ k - 1) <<< s) :
    v &&& m = ((v >>> s) % 2 ^ k) <<< s := by
  rw [hm, and_shifted_mask]

theorem or4_bytes (b0 b1 b2 b3 : Nat)
    (h1 : b1 < 2 ^ 8) (h2 : b2 < 2 ^ 8) (h3 : b3 < 2 ^ 8) :
    (b0 * 2 ^ 24) ||| (b1 * 2 ^ 16) ||| (b2 * 2 ^ 8) ||| b3 =
      b0 * 2 ^ 24 + b1 * 2 ^ 16 + b2 * 2 ^ 8 + b3 := by
  have s1 : (b0 * 2 ^ 24) ||| (b1 * 2 ^ 16) = b0 * 2 ^ 24 + b1 * 2 ^ 16 := by
    have hb : b1 * 2 ^ 16 < 2 ^ 24 := by omega
    rw [Nat.mul_comm b0 (2 ^ 24), ← Nat.mul_add_lt_is_or hb b0]
  have s2 : (b0 * 2 ^ 24 + b1 * 2 ^ 16) ||| (b2 * 2 ^ 8) =
      b0 * 2 ^ 24 + b1 * 2 ^ 16 + b2 * 2 ^ 8 := by
    have hb : b2 * 2 ^ 8 < 2 ^ 16 := by omega
    have e : b0 * 2 ^ 24 + b1 * 2 ^ 16 = 2 ^ 16 * (b0 * 2 ^ 8 + b1) := by ring
    rw [e, ← Nat.mul_add_lt_is_or hb (b0 * 2 ^ 8 + b1)]
  have s3 : (b0 * 2 ^ 24 + b1 * 2 ^ 16 + b2 * 2 ^ 8) ||| b3 =
      b0 * 2 ^ 24 + b1 * 2 ^ 16 + b2 * 2 ^ 8 + b3 := by
    have e : b0 * 2 ^ 24 + b1 * 2 ^ 16 + b2 * 2 ^ 8 =
        2 ^ 8 * (b0 * 2 ^ 16 + b1 * 2 ^ 8 + b2) := by ring
    rw [e, ← Nat.mul_add_lt_is_or h3 (b0 * 2 ^ 16 + b1 * 2 ^ 8 + b2)]
  rw [s1, s2, s3]

theorem invertByteOrderImpl4_eq (v : Nat) :
    IntOpImpl4.invertByteOrderImpl v =
      (v % 2 ^ 8) * 2 ^ 24 + (v / 2 ^ 8 % 2 ^ 8) * 2 ^ 16 +
        (v / 2 ^ 16 % 2 ^ 8) * 2 ^ 8 + v / 2 ^ 24 % 2 ^ 8 := by
  have m1 : v &&& 0xff = v % 2 ^ 8 := by
    have h : (0xff : Nat) = 2 ^ 8 - 1 := by norm_num
    rw [h, Nat.and_pow_two_sub_one_eq_mod]
  have m2 := and_byte_mask v 8 8 0xff00 (by decide)
  have m3 := and_byte_mask v 8 16 0xff0000 (by decide)
  have m4 := and_byte_mask v 8 24 0xff000000 (by decide)
  rw [IntOpImpl4.invertByteOrderImpl, m1, m2, m3, m4]
  simp only [Nat.shiftLeft_eq, Nat.shiftRight_eq_div_pow]
  have e1 : v / 2 ^ 8 % 2 ^ 8 * 2 ^ 8 * 2 ^ 8 = v / 2 ^ 8 % 2 ^ 8 * 2 ^ 16 := by ring
  have e2 : v / 2 ^ 16 % 2 ^ 8 * 2 ^ 16 / 2 ^ 8 = v / 2 ^ 16 % 2 ^ 8 * 2 ^ 8 := by
    rw [Nat.mul_div_assoc _ (pow_dvd_pow 2 (by norm_num))]; norm_num
  have e3 : v / 2 ^ 24 % 2 ^ 8 * 2 ^ 24 / 2 ^ 24 = v / 2 ^ 24 % 2 ^ 8 :=
    Nat.mul_div_cancel _ (by norm_num)
  rw [e1, e2, e3]
  have hb1 : v / 2 ^ 8 % 2 ^ 8 < 2 ^ 8 := Nat.mod_lt _ (by norm_num)
  have hb2 : v / 2 ^ 16 % 2 ^ 8 < 2 ^ 8 := Nat.mod_lt _ (by norm_num)
  have hb3 : v / 2 ^ 24 % 2 ^ 8 < 2 ^ 8 := Nat.mod_lt _ (by norm_num)
  rw [or4_bytes _ _ _ _ hb1 hb2 hb3]
  exact Nat.mod_eq_of_lt (by omega)

theorem bytes4 (b0 b1 b2 b3 : Nat)
    (h0 : b0 < 2 ^ 8) (h1 : b1 < 2 ^ 8) (h2 : b2 < 2 ^ 8) (h3 : b3 < 2 ^ 8) :
    (b0 * 2 ^ 24 + b1 * 2 ^ 16 + b2 * 2 ^ 8 + b3) % 2 ^ 8 = b3 ∧
    (b0 * 2 ^ 24 + b1 * 2 ^ 16 + b2 * 2 ^ 8 + b3) / 2 ^ 8 % 2 ^ 8 = b2 ∧
    (b0 * 2 ^ 24 + b1 * 2 ^ 16 + b2 * 2 ^ 8 + b3) / 2 ^ 16 % 2 ^ 8 = b1 ∧
    (b0 * 2 ^ 24 + b1 * 2 ^ 16 + b2 * 2 ^ 8 + b3) / 2 ^ 24 % 2 ^ 8 = b0 := by
  omega

theorem invertByteOrderImpl4_involutive (v : Nat) (hv : v < 2 ^ 32) :
    IntOpImpl4.invertByteOrderImpl (IntOpImpl4.invertByteOrderImpl v) = v := by
  rw [invertByteOrderImpl4_eq, invertByteOrderImpl4_eq]
  have hb0 : v % 2 ^ 8 < 2 ^ 8 := Nat.mod_lt _ (by norm_num)
  have hb1 : v / 2 ^ 8 % 2 ^ 8 < 2 ^ 8 := Nat.mod_lt _ (by norm_num)
  have hb2 : v / 2 ^ 16 % 2 ^ 8 < 2 ^ 8 := Nat.mod_lt _ (by norm_num)
  have hb3 : v / 2 ^ 24 % 2 ^ 8 < 2 ^ 8 := Nat.mod_lt _ (by norm_num)
  obtain ⟨hA, hB, hC, hD⟩ := bytes4 _ _ _ _ hb0 hb1 hb2 hb3
  rw [hA, hB, hC, hD]
  clear hA hB hC hD
  omega


theorem or8_bytes (b0 b1 b2 b3 b4 b5 b6 b7 : Nat)
    (h1 : b1 < 2 ^ 8) (h2 : b2 < 2 ^ 8) (h3 : b3 < 2 ^ 8) (h4 : b4 < 2 ^ 8)
    (h5 : b5 < 2 ^ 8) (h6 : b6 < 2 ^ 8) (h7 : b7 < 2 ^ 8) :
    (b0 * 2 ^ 56) ||| (b1 * 2 ^ 48) ||| (b2 * 2 ^ 40) ||| (b3 * 2 ^ 32) |||
        (b4 * 2 ^ 24) ||| (b5 * 2 ^ 16) ||| (b6 * 2 ^ 8) ||| b7 =
      b0 * 2 ^ 56 + b1 * 2 ^ 48 + b2 * 2 ^ 40 + b3 * 2 ^ 32 +
        b4 * 2 ^ 24 + b5 * 2 ^ 16 + b6 * 2 ^ 8 + b7 := by
  have s1 : (b0 * 2 ^ 56) ||| (b1 * 2 ^ 48) = b0 * 2 ^ 56 + b1 * 2 ^ 48 := by
    have hb : b1 * 2 ^ 48 < 2 ^ 56 := by omega
    rw [Nat.mul_comm b0 (2 ^ 56), ← Nat.mul_add_lt_is_or hb b0]
  have s2 : (b0 * 2 ^ 56 + b1 * 2 ^ 48) ||| (b2 * 2 ^ 40) =
      b0 * 2 ^ 56 + b1 * 2 ^ 48 + b2 * 2 ^ 40 := by
    have hb : b2 * 2 ^ 40 < 2 ^ 48 := by omega
    have e : b0 * 2 ^ 56 + b1 * 2 ^ 48 = 2 ^ 48 * (b0 * 2 ^ 8 + b1) := by ring
    rw [e, ← Nat.mul_add_lt_is_or hb (b0 * 2 ^ 8 + b1)]
  have s3 : (b0 * 2 ^ 56 + b1 * 2 ^ 48 + b2 * 2 ^ 40) ||| (b3 * 2 ^ 32) =
      b0 * 2 ^ 56 + b1 * 2 ^ 48 + b2 * 2 ^ 40 + b3 * 2 ^ 32 := by
    have hb : b3 * 2 ^ 32 < 2 ^ 40 := by omega
    have e : b0 * 2 ^ 56 + b1 * 2 ^ 48 + b2 * 2 ^ 40 =
        2 ^ 40 * (b0 * 2 ^ 16 + b1 * 2 ^ 8 + b2) := by ring
    rw [e, ← Nat.mul_add_lt_is_or hb (b0 * 2 ^ 16 + b1 * 2 ^ 8 + b2)]
  have s4 : (b0 * 2 ^ 56 + b1 * 2 ^ 48 + b2 * 2 ^ 40 + b3 * 2 ^ 32) |||
        (b4 * 2 ^ 24) =
      b0 * 2 ^ 56 + b1 * 2 ^ 48 + b2 * 2 ^ 40 + b3 * 2 ^ 32 + b4 * 2 ^ 24 := by
    have hb : b4 * 2 ^ 24 < 2 ^ 32 := by omega
    have e : b0 * 2 ^ 56 + b1 * 2 ^ 48 + b2 * 2 ^ 40 + b3 * 2 ^ 32 =
        2 ^ 32 * (b0 * 2 ^ 24 + b1 * 2 ^ 16 + b2 * 2 ^ 8 + b3) := by ring
    rw [e, ← Nat.mul_add_lt_is_or hb (b0 * 2 ^ 24 + b1 * 2 ^ 16 + b2 * 2 ^ 8 + b3)]
  have s5 : (b0 * 2 ^ 56 + b1 * 2 ^ 48 + b2 * 2 ^ 40 + b3 * 2 ^ 32 +
        b4 * 2 ^ 24) ||| (b5 * 2 ^ 16) =
      b0 * 2 ^ 56 + b1 * 2 ^ 48 + b2 * 2 ^ 40 + b3 * 2 ^ 32 + b4 * 2 ^ 24 +
        b5 * 2 ^ 16 := by
    have hb : b5 * 2 ^ 16 < 2 ^ 24 := by omega
    have e : b0 * 2 ^ 56 + b1 * 2 ^ 48 + b2 * 2 ^ 40 + b3 * 2 ^ 32 + b4 * 2 ^ 24 =
        2 ^ 24 * (b0 * 2 ^ 32 + b1 * 2 ^ 24 + b2 * 2 ^ 16 + b3 * 2 ^ 8 + b4) := by
      ring
    rw [e, ← Nat.mul_add_lt_is_or hb
      (b0 * 2 ^ 32 + b1 * 2 ^ 24 + b2 * 2 ^ 16 + b3 * 2 ^ 8 + b4)]
  have s6 : (b0 * 2 ^ 56 + b1 * 2 ^ 48 + b2 * 2 ^ 40 + b3 * 2 ^ 32 +
        b4 * 2 ^ 24 + b5 * 2 ^ 16) ||| (b6 * 2 ^ 8) =
      b0 * 2 ^ 56 + b1 * 2 ^ 48 + b2 * 2 ^ 40 + b3 * 2 ^ 32 + b4 * 2 ^ 24 +
        b5 * 2 ^ 16 + b6 * 2 ^ 8 := by
    have hb : b6 * 2 ^ 8 < 2 ^ 16 := by omega
    have e : b0 * 2 ^ 56 + b1 * 2 ^ 48 + b2 * 2 ^ 40 + b3 * 2 ^ 32 + b4 * 2 ^ 24 +
        b5 * 2 ^ 16 =
        2 ^ 16 * (b0 * 2 ^ 40 + b1 * 2 ^ 32 + b2 * 2 ^ 24 + b3 * 2 ^ 16 +
          b4 * 2 ^ 8 + b5) := by
      ring
    rw [e, ← Nat.mul_add_lt_is_or hb
      (b0 * 2 ^ 40 + b1 * 2 ^ 32 + b2 * 2 ^ 24 + b3 * 2 ^ 16 + b4 * 2 ^ 8 + b5)]
  have s7 : (b0 * 2 ^ 56 + b1 * 2 ^ 48 + b2 * 2 ^ 40 + b3 * 2 ^ 32 +
        b4 * 2 ^ 24 + b5 * 2 ^ 16 + b6 * 2 ^ 8) ||| b7 =
      b0 * 2 ^ 56 + b1 * 2 ^ 48 + b2 * 2 ^ 40 + b3 * 2 ^ 32 + b4 * 2 ^ 24 +
        b5 * 2 ^ 16 + b6 * 2 ^ 8 + b7 := by
    have e : b0 * 2 ^ 56 + b1 * 2 ^ 48 + b2 * 2 ^ 40 + b3 * 2 ^ 32 + b4 * 2 ^ 24 +
        b5 * 2 ^ 16 + b6 * 2 ^ 8 =
        2 ^ 8 * (b0 * 2 ^ 48 + b1 * 2 ^ 40 + b2 * 2 ^ 32 + b3 * 2 ^ 24 +
          b4 * 2 ^ 16 + b5 * 2 ^ 8 + b6) := by
      ring
    rw [e, ← Nat.mul_add_lt_is_or h7
      (b0 * 2 ^ 48 + b1 * 2 ^ 40 + b2 * 2 ^ 32 + b3 * 2 ^ 24 + b4 * 2 ^ 16 +
        b5 * 2 ^ 8 + b6)]
  rw [s1, s2, s3, s4, s5, s6, s7]

theorem invertByteOrderImpl8_eq (v : Nat) :
    IntOpImpl8.invertByteOrderImpl v =
      (v % 2 ^ 8) * 2 ^ 56 + (v / 2 ^ 8 % 2 ^ 8) * 2 ^ 48 +
        (v / 2 ^ 16 % 2 ^ 8) * 2 ^ 40 + (v / 2 ^ 24 % 2 ^ 8) * 2 ^ 32 +
        (v / 2 ^ 32 % 2 ^ 8) * 2 ^ 24 + (v / 2 ^ 40 % 2 ^ 8) * 2 ^ 16 +
        (v / 2 ^ 48 % 2 ^ 8) * 2 ^ 8 + v / 2 ^ 56 % 2 ^ 8 := by
  have m1 : v &&& 0xff = v % 2 ^ 8 := by
    have h : (0xff : Nat) = 2 ^ 8 - 1 := by norm_num
    rw [h, Nat.and_pow_two_sub_one_eq_mod]
  have m2 := and_byte_mask v 8 8 0xff00 (by decide)
  have m3 := and_byte_mask v 8 16 0xff0000 (by decide)
  have m4 := and_byte_mask v 8 24 0xff000000 (by decide)
  have m5 := and_byte_mask v 8 32 0xff00000000 (by decide)
  have m6 := and_byte_mask v 8 40 0xff0000000000 (by decide)
  have m7 := and_byte_mask v 8 48 0xff000000000000 (by decide)
  have m8 := and_byte_mask v 8 56 0xff00000000000000 (by decide)
  rw [IntOpImpl8.invertByteOrderImpl, m1, m2, m3, m4, m5, m6, m7, m8]
  simp only [Nat.shiftLeft_eq, Nat.shiftRight_eq_div_pow]
  have e1 : v / 2 ^ 8 % 2 ^ 8 * 2 ^ 8 * 2 ^ 40 = v / 2 ^ 8 % 2 ^ 8 * 2 ^ 48 := by
    ring
  have e2 : v / 2 ^ 16 % 2 ^ 8 * 2 ^ 16 * 2 ^ 24 = v / 2 ^ 16 % 2 ^ 8 * 2 ^ 40 := by
    ring
  have e3 : v / 2 ^ 24 % 2 ^ 8 * 2 ^ 24 * 2 ^ 8 = v / 2 ^ 24 % 2 ^ 8 * 2 ^ 32 := by
    ring
  have e4 : v / 2 ^ 32 % 2 ^ 8 * 2 ^ 32 / 2 ^ 8 = v / 2 ^ 32 % 2 ^ 8 * 2 ^ 24 := by
    rw [Nat.mul_div_assoc _ (pow_dvd_pow 2 (by norm_num))]; norm_num
  have e5 : v / 2 ^ 40 % 2 ^ 8 * 2 ^ 40 / 2 ^ 24 = v / 2 ^ 40 % 2 ^ 8 * 2 ^ 16 := by
    rw [Nat.mul_div_assoc _ (pow_dvd_pow 2 (by norm_num))]; norm_num
  have e6 : v / 2 ^ 48 % 2 ^ 8 * 2 ^ 48 / 2 ^ 40 = v / 2 ^ 48 % 2 ^ 8 * 2 ^ 8 := by
    rw [Nat.mul_div_assoc _ (pow_dvd_pow 2 (by norm_num))]; norm_num
  have e7 : v / 2 ^ 56 % 2 ^ 8 * 2 ^ 56 / 2 ^ 56 = v / 2 ^ 56 % 2 ^ 8 :=
    Nat.mul_div_cancel _ (by norm_num)
  rw [e1, e2, e3, e4, e5, e6, e7]
  have hb1 : v / 2 ^ 8 % 2 ^ 8 < 2 ^ 8 := Nat.mod_lt _ (by norm_num)
  have hb2 : v / 2 ^ 16 % 2 ^ 8 < 2 ^ 8 := Nat.mod_lt _ (by norm_num)
  have hb3 : v / 2 ^ 24 % 2 ^ 8 < 2 ^ 8 := Nat.mod_lt _ (by norm_num)
  have hb4 : v / 2 ^ 32 % 2 ^ 8 < 2 ^ 8 := Nat.mod_lt _ (by norm_num)
  have hb5 : v / 2 ^ 40 % 2 ^ 8 < 2 ^ 8 := Nat.mod_lt _ (by norm_num)
  have hb6 : v / 2 ^ 48 % 2 ^ 8 < 2 ^ 8 := Nat.mod_lt _ (by norm_num)
  have hb7 : v / 2 ^ 56 % 2 ^ 8 < 2 ^ 8 := Nat.mod_lt _ (by norm_num)
  rw [or8_bytes _ _ _ _ _ _ _ _ hb1 hb2 hb3 hb4 hb5 hb6 hb7]
  exact Nat.mod_eq_of_lt (by omega)

theorem bytes8 (b0 b1 b2 b3 b4 b5 b6 b7 : Nat)
    (h0 : b0 < 2 ^ 8) (h1 : b1 < 2 ^ 8) (h2 : b2 < 2 ^ 8) (h3 : b3 < 2 ^ 8)
    (h4 : b4 < 2 ^ 8) (h5 : b5 < 2 ^ 8) (h6 : b6 < 2 ^ 8) (h7 : b7 < 2 ^ 8) :
    (b0 * 2 ^ 56 + b1 * 2 ^ 48 + b2 * 2 ^ 40 + b3 * 2 ^ 32 + b4 * 2 ^ 24 +
        b5 * 2 ^ 16 + b6 * 2 ^ 8 + b7) % 2 ^ 8 = b7 ∧
    (b0 * 2 ^ 56 + b1 * 2 ^ 48 + b2 * 2 ^ 40 + b3 * 2 ^ 32 + b4 * 2 ^ 24 +
        b5 * 2 ^ 16 + b6 * 2 ^ 8 + b7) / 2 ^ 8 % 2 ^ 8 = b6 ∧
    (b0 * 2 ^ 56 + b1 * 2 ^ 48 + b2 * 2 ^ 40 + b3 * 2 ^ 32 + b4 * 2 ^ 24 +
        b5 * 2 ^ 16 + b6 * 2 ^ 8 + b7) / 2 ^ 16 % 2 ^ 8 = b5 ∧
    (b0 * 2 ^ 56 + b1 * 2 ^ 48 + b2 * 2 ^ 40 + b3 * 2 ^ 32 + b4 * 2 ^ 24 +
        b5 * 2 ^ 16 + b6 * 2 ^ 8 + b7) / 2 ^ 24 % 2 ^ 8 = b4 ∧
    (b0 * 2 ^ 56 + b1 * 2 ^ 48 + b2 * 2 ^ 40 + b3 * 2 ^ 32 + b4 * 2 ^ 24 +
        b5 * 2 ^ 16 + b6 * 2 ^ 8 + b7) / 2 ^ 32 % 2 ^ 8 = b3 ∧
    (b0 * 2 ^ 56 + b1 * 2 ^ 48 + b2 * 2 ^ 40 + b3 * 2 ^ 32 + b4 * 2 ^ 24 +
        b5 * 2 ^ 16 + b6 * 2 ^ 8 + b7) / 2 ^ 40 % 2 ^ 8 = b2 ∧
    (b0 * 2 ^ 56 + b1 * 2 ^ 48 + b2 * 2 ^ 40 + b3 * 2 ^ 32 + b4 * 2 ^ 24 +
        b5 * 2 ^ 16 + b6 * 2 ^ 8 + b7) / 2 ^ 48 % 2 ^ 8 = b1 ∧
    (b0 * 2 ^ 56 + b1 * 2 ^ 48 + b2 * 2 ^ 40 + b3 * 2 ^ 32 + b4 * 2 ^ 24 +
        b5 * 2 ^ 16 + b6 * 2 ^ 8 + b7) / 2 ^ 56 % 2 ^ 8 = b0 := by
  omega

theorem invertByteOrderImpl8_involutive (v : Nat) (hv : v < 2 ^ 64) :
    IntOpImpl8.invertByteOrderImpl (IntOpImpl8.invertByteOrderImpl v) = v := by
  rw [invertByteOrderImpl8_eq, invertByteOrderImpl8_eq]
  have hb0 : v % 2 ^ 8 < 2 ^ 8 := Nat.mod_lt _ (by norm_num)
  have hb1 : v / 2 ^ 8 % 2 ^ 8 < 2 ^ 8 := Nat.mod_lt _ (by norm_num)
  have hb2 : v / 2 ^ 16 % 2 ^ 8 < 2 ^ 8 := Nat.mod_lt _ (by norm_num)
  have hb3 : v / 2 ^ 24 % 2 ^ 8 < 2 ^ 8 := Nat.mod_lt _ (by norm_num)
  have hb4 : v / 2 ^ 32 % 2 ^ 8 < 2 ^ 8 := Nat.mod_lt _ (by norm_num)
  have hb5 : v / 2 ^ 40 % 2 ^ 8 < 2 ^ 8 := Nat.mod_lt _ (by norm_num)
  have hb6 : v / 2 ^ 48 % 2 ^ 8 < 2 ^ 8 := Nat.mod_lt _ (by norm_num)
  have hb7 : v / 2 ^ 56 % 2 ^ 8 < 2 ^ 8 := Nat.mod_lt _ (by norm_num)
  obtain ⟨hA, hB, hC, hD, hE, hF, hG, hH⟩ :=
    bytes8 _ _ _ _ _ _ _ _ hb0 hb1 hb2 hb3 hb4 hb5 hb6 hb7
  rw [hA, hB, hC, hD, hE, hF, hG, hH]
  clear hA hB hC hD hE hF hG hH
  omega

/-- C2: `invertByteOrder` is an involution at every byte width in {1, 2, 4, 8},
and at width 1 it is the identity. -/
theorem invertByteOrder_involutive (w : ByteWidth) (v : Nat)
    (hv : v < 2 ^ w.bits) :
    invertByteOrder w (invertByteOrder w v) = v ∧
    invertByteOrder .w1 v = v := by
  refine ⟨?_, rfl⟩
  cases w
  · rfl
  · exact invertByteOrderImpl2_involutive v hv
  · exact invertByteOrderImpl4_involutive v hv
  · exact invertByteOrderImpl8_involutive v hv

/-- Witness for C2: width 4 bytes, value 0x11223344. -/
theorem invertByteOrder_involutive_witness :
    (0x11223344 : Nat) < 2 ^ ByteWidth.w4.bits ∧
    (invertByteOrder .w4 (invertByteOrder .w4 0x11223344) = 0x11223344 ∧
      invertByteOrder .w1 0x11223344 = 0x11223344) :=
  ⟨by decide, invertByteOrder_involutive .w4 0x11223344 (by decide)⟩


/-! ### The Number wrapper, numeric limits, predicates, hashing -/

/-- A floating-point value as seen by the classification predicates and limit
constants: a finite value (modelled exactly), positive or negative infinity,
or NaN.  Rounding of finite arithmetic is irrelevant to the properties
verified here; the only arithmetic the header performs on these constants is
`0 - infinity()`. -/
inductive FloatVal where
  | finite (q : ℚ)
  | posInf
  | negInf
  | nan
deriving DecidableEq

/-- IEEE-754 subtraction on classified values (exact on finite operands; the
header only evaluates `0 - x`). -/
def FloatVal.sub : FloatVal → FloatVal → FloatVal
  | .nan, _ => .nan
  | _, .nan => .nan
  | .posInf, .posInf => .nan
  | .negInf, .negInf => .nan
  | .posInf, _ => .posInf
  | .negInf, _ => .negInf
  | .finite _, .posInf => .negInf
  | .finite _, .negInf => .posInf
  | .finite a, .finite b => .finite (a - b)

instance : Zero FloatVal := ⟨.finite 0⟩

instance : Sub FloatVal := ⟨FloatVal.sub⟩

/-- `std::isnan` on a floating-point value. -/
def FloatVal.stdIsnan : FloatVal → Bool
  | .nan => true
  | _ => false

/-- `std::isfinite` on a floating-point value. -/
def FloatVal.stdIsfinite : FloatVal → Bool
  | .finite _ => true
  | _ => false

/-- IEEE-754 `==` on floating-point values: NaN compares unequal to
everything, including itself. -/
def FloatVal.beq : FloatVal → FloatVal → Bool
  | .nan, _ => false
  | _, .nan => false
  | .finite a, .finite b => decide (a = b)
  | .posInf, .posInf => true
  | .negInf, .negInf => true
  | _, _ => false

/-- IEEE-754 `!=`: the negation of `==`. -/
def FloatVal.bne (a b : FloatVal) : Bool := !(FloatVal.beq a b)

/-- IEEE-754 `<`: false whenever an operand is NaN (unordered). -/
def FloatVal.blt : FloatVal → FloatVal → Bool
  | .nan, _ => false
  | _, .nan => false
  | .finite a, .finite b => decide (a < b)
  | .finite _, .posInf => true
  | .finite _, .negInf => false
  | .posInf, _ => false
  | .negInf, .negInf => false
  | .negInf, _ => true

/-- IEEE-754 `<=`. -/
def FloatVal.ble (a b : FloatVal) : Bool := FloatVal.blt a b || FloatVal.beq a b

/-- IEEE-754 `>`. -/
def FloatVal.bgt (a b : FloatVal) : Bool := FloatVal.blt b a

/-- IEEE-754 `>=`. -/
def FloatVal.bge (a b : FloatVal) : Bool := FloatVal.blt b a || FloatVal.beq a b

/-- The members of `std::numeric_limits<T>` that `Number<T>` reads. -/
structure StdNumericLimits (α : Type) where
  infinity : α
  quiet_NaN : α
  has_infinity : Bool
  has_quiet_NaN : Bool

/-- `std::numeric_limits<T>` for an integer type `T`: `infinity()` and
`quiet_NaN()` return `T()`, i.e. zero, and the capability flags are false
(the C++ standard behaviour of the integer specialisations, which the header
doc comments restate: "Integer types do not have an infinity value. For them
this is 0."). -/
def intNumericLimits (α : Type) [Zero α] : StdNumericLimits α :=
  { infinity := 0
    quiet_NaN := 0
    has_infinity := false
    has_quiet_NaN := false }

/-- `std::numeric_limits<T>` for an IEEE floating-point type. -/
def floatNumericLimits : StdNumericLimits FloatVal :=
  { infinity := .posInf
    quiet_NaN := .nan
    has_infinity := true
    has_quiet_NaN := true }

/-- `bdn::Number<BaseType>`: a value object holding exactly one field
`_value` of the base type. -/
structure Number (α : Type) where
  value : α
deriving DecidableEq

/-- `Number::getValue()`: returns the stored value. -/
def Number.getValue (n : Number α) : α := n.value

/-- `Number<BaseType>::infinity()`:
`std::numeric_limits<BaseType>::infinity()`. -/
def Number.infinity (L : StdNumericLimits α) : α := L.infinity

/-- `Number<BaseType>::negativeInfinity()`:
`0 - std::numeric_limits<BaseType>::infinity()`. -/
def Number.negativeInfinity [Zero α] [Sub α] (L : StdNumericLimits α) : α :=
  0 - L.infinity

/-- `Number<BaseType>::nan()`:
`std::numeric_limits<BaseType>::quiet_NaN()`. -/
def Number.nan (L : StdNumericLimits α) : α := L.quiet_NaN

/-- `Number::operator==`: returns `_value == otherValue`, where `baseEq` is
the base type's built-in `==`. -/
def Number.eqRaw (baseEq : α → α → Bool) (n : Number α) (otherValue : α) :
    Bool :=
  baseEq n.value otherValue

/-- `Number::operator!=`. -/
def Number.neRaw (baseNe : α → α → Bool) (n : Number α) (otherValue : α) :
    Bool :=
  baseNe n.value otherValue

/-- `Number::operator<`. -/
def Number.ltRaw (baseLt : α → α → Bool) (n : Number α) (otherValue : α) :
    Bool :=
  baseLt n.value otherValue

/-- `Number::operator<=`. -/
def Number.leRaw (baseLe : α → α → Bool) (n : Number α) (otherValue : α) :
    Bool :=
  baseLe n.value otherValue

/-- `Number::operator>`. -/
def Number.gtRaw (baseGt : α → α → Bool) (n : Number α) (otherValue : α) :
    Bool :=
  baseGt n.value otherValue

/-- `Number::operator>=`. -/
def Number.geRaw (baseGe : α → α → Bool) (n : Number α) (otherValue : α) :
    Bool :=
  baseGe n.value otherValue

/-- Built-in `==` of a C++ integer type, modelled on the unbounded integers
(all integer widths behave identically on their value ranges). -/
def intEq (a b : Int) : Bool := decide (a = b)

/-- Built-in `!=` of a C++ integer type. -/
def intNe (a b : Int) : Bool := decide (a ≠ b)

/-- Built-in `<` of a C++ integer type. -/
def intLt (a b : Int) : Bool := decide (a < b)

/-- Built-in `<=` of a C++ integer type. -/
def intLe (a b : Int) : Bool := decide (a ≤ b)

/-- Built-in `>` of a C++ integer type. -/
def intGt (a b : Int) : Bool := decide (a > b)

/-- Built-in `>=` of a C++ integer type. -/
def intGe (a b : Int) : Bool := decide (a ≥ b)

/-- `std::hash<bdn::Number<T>>::operator()`: applies the raw type's hash to
`key.getValue()`; the header gives this same one-line definition for every
published alias. -/
def hashNumber (rawHash : α → Nat) (key : Number α) : Nat :=
  rawHash key.getValue


namespace MscNumberUtilHelperNotFloat

/-- Primary template `MscNumberUtilHelper_<false>` (base type is not
floating-point): `isNan` returns false unconditionally. -/
def isNan (value : α) : Bool := false

/-- Primary template `MscNumberUtilHelper_<false>`: `isFinite` returns true
unconditionally. -/
def isFinite (value : α) : Bool := true

end MscNumberUtilHelperNotFloat

namespace MscNumberUtilHelperFloat

/-- Specialisation `MscNumberUtilHelper_<true>`: `isNan` delegates to
`std::isnan`, passed in as `stdIsnanFn`. -/
def isNan (stdIsnanFn : α → Bool) (value : α) : Bool := stdIsnanFn value

/-- Specialisation `MscNumberUtilHelper_<true>`: `isFinite` delegates to
`std::isfinite`. -/
def isFinite (stdIsfiniteFn : α → Bool) (value : α) : Bool :=
  stdIsfiniteFn value

end MscNumberUtilHelperFloat

/-- `std::isnan` applied to an integer argument (C++17 arithmetic overload):
the argument is converted to `double`, and the image of an integer is never
NaN, so the result is false. -/
def stdIsnanOfInt (value : Int) : Bool := false

/-- `std::isfinite` applied to an integer argument: always true. -/
def stdIsfiniteOfInt (value : Int) : Bool := true

/-- `bdn::isNan<T>` for an integer base type `T`.  `stdIsnanIntMissing`
selects the `BDN_STD_ISNAN_INT_MISSING` preprocessor branch; in that branch
`!std::numeric_limits<T>::is_integer` is false, so the primary (non-float)
helper is chosen. -/
def isNanInt (stdIsnanIntMissing : Bool) (value : Int) : Bool :=
  if stdIsnanIntMissing then MscNumberUtilHelperNotFloat.isNan value
  else stdIsnanOfInt value

/-- `bdn::isFinite<T>` for an integer base type `T` (branch flag is
`BDN_STD_ISFINITE_INT_MISSING`). -/
def isFiniteInt (stdIsfiniteIntMissing : Bool) (value : Int) : Bool :=
  if stdIsfiniteIntMissing then MscNumberUtilHelperNotFloat.isFinite value
  else stdIsfiniteOfInt value

/-- `bdn::isNan<T>` for a floating-point base type `T`: in the workaround
branch `!is_integer` is true and the float helper applies `std::isnan`; in
the other branch `std::isnan` is called directly. -/
def isNanFloat (stdIsnanIntMissing : Bool) (value : FloatVal) : Bool :=
  if stdIsnanIntMissing then
    MscNumberUtilHelperFloat.isNan FloatVal.stdIsnan value
  else FloatVal.stdIsnan value

/-- `bdn::isFinite<T>` for a floating-point base type `T`. -/
def isFiniteFloat (stdIsfiniteIntMissing : Bool) (value : FloatVal) : Bool :=
  if stdIsfiniteIntMissing then
    MscNumberUtilHelperFloat.isFinite FloatVal.stdIsfinite value
  else FloatVal.stdIsfinite value

/-- C3: for every integer value, `isNan` returns false and `isFinite`
returns true, in both preprocessor configurations. -/
theorem isNan_isFinite_int (missingNan missingFin : Bool) (v : Int) :
    isNanInt missingNan v = false ∧ isFiniteInt missingFin v = true := by
  cases missingNan <;> cases missingFin <;>
    simp [isNanInt, isFiniteInt, stdIsnanOfInt, stdIsfiniteOfInt,
      MscNumberUtilHelperNotFloat.isNan, MscNumberUtilHelperNotFloat.isFinite]

/-- C7: for every floating-point type: every finite value is neither NaN nor
non-finite, `isNan (Number::nan()) = true` and
`isFinite (Number::infinity()) = false`, in both preprocessor
configurations. -/
theorem isNan_isFinite_float (missing : Bool) (q : ℚ) :
    isNanFloat missing (.finite q) = false ∧
    isFiniteFloat missing (.finite q) = true ∧
    isNanFloat missing (Number.nan floatNumericLimits) = true ∧
    isFiniteFloat missing (Number.infinity floatNumericLimits) = false := by
  cases missing <;>
    simp [isNanFloat, isFiniteFloat, MscNumberUtilHelperFloat.isNan,
      MscNumberUtilHelperFloat.isFinite, FloatVal.stdIsnan,
      FloatVal.stdIsfinite, Number.nan, Number.infinity, floatNumericLimits]

/-- C4: for every base type and every host hash function on it, hashing a
wrapped `Number` equals hashing the raw value. -/
theorem hash_number_eq_hash_raw (α : Type) (rawHash : α → Nat) (x : α) :
    hashNumber rawHash (Number.mk x) = rawHash x := rfl

/-- Counterexample to C8 as stated: with a floating-point base type and
`v = NaN`, `Number<T>{v} == v` is false, because the wrapper delegates to the
base type's `==` and IEEE-754 equality is not reflexive on NaN. -/
theorem number_eq_raw_nan_counterexample :
    Number.eqRaw FloatVal.beq (Number.mk FloatVal.nan) FloatVal.nan = false :=
  rfl

/-- C8 (amended): each wrapped comparison delegates to the underlying
comparison of the base type, so `Number<T>{v} == v` is true for every value
that compares equal to itself — every integer value and every non-NaN
floating-point value — and `Number<T>{v} OP w` agrees with `v OP w` for all
six operators on both integer and floating-point base types. -/
theorem number_compare_delegates (v w : Int) (x y : FloatVal)
    (hx : x ≠ FloatVal.nan) :
    Number.eqRaw intEq (Number.mk v) v = true ∧
    (Number.eqRaw intEq (Number.mk v) w = true ↔ v = w) ∧
    (Number.neRaw intNe (Number.mk v) w = true ↔ v ≠ w) ∧
    (Number.ltRaw intLt (Number.mk v) w = true ↔ v < w) ∧
    (Number.leRaw intLe (Number.mk v) w = true ↔ v ≤ w) ∧
    (Number.gtRaw intGt (Number.mk v) w = true ↔ v > w) ∧
    (Number.geRaw intGe (Number.mk v) w = true ↔ v ≥ w) ∧
    Number.eqRaw FloatVal.beq (Number.mk x) x = true ∧
    Number.eqRaw FloatVal.beq (Number.mk x) y = FloatVal.beq x y ∧
    Number.neRaw FloatVal.bne (Number.mk x) y = FloatVal.bne x y ∧
    Number.ltRaw FloatVal.blt (Number.mk x) y = FloatVal.blt x y ∧
    Number.leRaw FloatVal.ble (Number.mk x) y = FloatVal.ble x y ∧
    Number.gtRaw FloatVal.bgt (Number.mk x) y = FloatVal.bgt x y ∧
    Number.geRaw FloatVal.bge (Number.mk x) y = FloatVal.bge x y := by
  refine ⟨?_, ?_, ?_, ?_, ?_, ?_, ?_, ?_, rfl, rfl, rfl, rfl, rfl, rfl⟩
  · simp [Number.eqRaw, intEq]
  · simp [Number.eqRaw, intEq]
  · simp [Number.neRaw, intNe]
  · simp [Number.ltRaw, intLt]
  · simp [Number.leRaw, intLe]
  · simp [Number.gtRaw, intGt]
  · simp [Number.geRaw, intGe]
  · cases x with
    | finite q => simp [Number.eqRaw, FloatVal.beq]
    | posInf => rfl
    | negInf => rfl
    | nan => exact absurd rfl hx

/-- Witness for C8 (amended): `v = 3`, `w = 5`, `x = +inf`, `y = 0.0`. -/
theorem number_compare_delegates_witness :
    FloatVal.posInf ≠ FloatVal.nan ∧
    (Number.eqRaw intEq (Number.mk 3) 3 = true ∧
      (Number.eqRaw intEq (Number.mk 3) 5 = true ↔ (3 : Int) = 5) ∧
      (Number.neRaw intNe (Number.mk 3) 5 = true ↔ (3 : Int) ≠ 5) ∧
      (Number.ltRaw intLt (Number.mk 3) 5 = true ↔ (3 : Int) < 5) ∧
      (Number.leRaw intLe (Number.mk 3) 5 = true ↔ (3 : Int) ≤ 5) ∧
      (Number.gtRaw intGt (Number.mk 3) 5 = true ↔ (3 : Int) > 5) ∧
      (Number.geRaw intGe (Number.mk 3) 5 = true ↔ (3 : Int) ≥ 5) ∧
      Number.eqRaw FloatVal.beq (Number.mk FloatVal.posInf) FloatVal.posInf =
        true ∧
      Number.eqRaw FloatVal.beq (Number.mk FloatVal.posInf) (FloatVal.finite 0) =
        FloatVal.beq FloatVal.posInf (FloatVal.finite 0) ∧
      Number.neRaw FloatVal.bne (Number.mk FloatVal.posInf) (FloatVal.finite 0) =
        FloatVal.bne FloatVal.posInf (FloatVal.finite 0) ∧
      Number.ltRaw FloatVal.blt (Number.mk FloatVal.posInf) (FloatVal.finite 0) =
        FloatVal.blt FloatVal.posInf (FloatVal.finite 0) ∧
      Number.leRaw FloatVal.ble (Number.mk FloatVal.posInf) (FloatVal.finite 0) =
        FloatVal.ble FloatVal.posInf (FloatVal.finite 0) ∧
      Number.gtRaw FloatVal.bgt (Number.mk FloatVal.posInf) (FloatVal.finite 0) =
        FloatVal.bgt FloatVal.posInf (FloatVal.finite 0) ∧
      Number.geRaw FloatVal.bge (Number.mk FloatVal.posInf) (FloatVal.finite 0) =
        FloatVal.bge FloatVal.posInf (FloatVal.finite 0)) :=
  ⟨by decide, number_compare_delegates 3 5 FloatVal.posInf (FloatVal.finite 0)
    (by decide)⟩

/-- C9: for every integer base type, `negativeInfinity()` returns 0, the
same value as `infinity()` (both derive from
`numeric_limits::infinity() = T()`); for a floating-point base type they are
the IEEE negative and positive infinities. -/
theorem negativeInfinity_spec (α : Type) [Zero α] [Sub α]
    (h : (0 : α) - 0 = 0) :
    Number.negativeInfinity (intNumericLimits α) = 0 ∧
    Number.negativeInfinity (intNumericLimits α) =
      Number.infinity (intNumericLimits α) ∧
    Number.negativeInfinity floatNumericLimits = FloatVal.negInf ∧
    Number.infinity floatNumericLimits = FloatVal.posInf :=
  ⟨h, h, rfl, rfl⟩

/-- Witness for C9 at the integer carrier `Int`. -/
theorem negativeInfinity_spec_witness :
    ((0 : Int) - 0 = 0) ∧
    (Number.negativeInfinity (intNumericLimits Int) = 0 ∧
      Number.negativeInfinity (intNumericLimits Int) =
        Number.infinity (intNumericLimits Int) ∧
      Number.negativeInfinity floatNumericLimits = FloatVal.negInf ∧
      Number.infinity floatNumericLimits = FloatVal.posInf) :=
  ⟨by decide, negativeInfinity_spec Int (by decide)⟩

/-- C10: for every integer base type, `Number<T>::nan()` returns 0, because
`std::numeric_limits<T>::quiet_NaN()` returns `T()` for integer types. -/
theorem nan_int_eq_zero (α : Type) [Zero α] :
    Number.nan (intNumericLimits α) = (0 : α) := rfl

end BdnNumber
